import Mathlib

/-!
# Verification of the `cellular-ts` core (grid, update rule, face extraction, animation)

Shallow embedding of the TypeScript sources:
  * `src/utils.ts`          (`Utils` namespace: clamp / smoothStep / mix / mix3 / mix4)
  * `src/grid/cellGrid.ts`  (`GridDimensions`, `CellGrid`)
  * `src/grid/gridState.ts` (`GridState`)
  * `src/mesh/face.ts`      (`SIDE`, `Face`)
  * `src/mesh/animFace.ts`  (`AnimFace`)

Modelling conventions:
  * JS numbers used as cell states / coordinates / indices are modelled as `ℤ`;
    fractional quantities (AO values, vertices, mixing controls) as `ℚ`.
  * A JS cell array may contain holes (`Array(n)` plus partial assignment) and
    reads past the end yield `undefined`; cell storage is therefore
    `List (Option ℤ)` and a hole / out-of-range read is `none`.
  * `getCell` returns `Option ℤ`: `none` models both the explicit `null`
    (out of bounds) and `undefined` (hole / past-the-end read); the JS loose
    test `cell != null` is false for both, matching the `Option` pattern match.
  * `Math.cos` (floating point) is abstracted as a function parameter `cosFn`
    where it occurs (only in the `GROW` vertex easing).
  * `Math.random()` is abstracted as a sampling oracle `rand : ℕ → ℚ`
    (the value drawn for each array slot).
-/

namespace Cellular

/-! ## Utils (src/utils.ts) -/

namespace Utils

/-- `clamp(val, min, max) = Math.min(Math.max(val, min), max)`. -/
def clamp (v lo hi : ℚ) : ℚ := min (max v lo) hi

/-- `smoothStep(control)`: clamp to [0,1], then `clamp(c*c*(3 - 2*c), 0, 1)`. -/
def smoothStep (control : ℚ) : ℚ :=
  let c := clamp control 0 1
  clamp (c * c * (3 - 2 * c)) 0 1

/-- `mix(a, b, control) = control * b + (1 - control) * a`. -/
def mix (a b control : ℚ) : ℚ := control * b + (1 - control) * a

/-- `mix3`: componentwise `mix` of triples; note the source re-applies
`smoothStep` to the control inside each component. -/
def mix3 (a b : ℚ × ℚ × ℚ) (control : ℚ) : ℚ × ℚ × ℚ :=
  (mix a.1 b.1 (smoothStep control),
   mix a.2.1 b.2.1 (smoothStep control),
   mix a.2.2 b.2.2 (smoothStep control))

/-- `mix4`: componentwise `mix` of 4-tuples; note the source re-applies
`smoothStep` to the control inside each component. -/
def mix4 (a b : ℚ × ℚ × ℚ × ℚ) (control : ℚ) : ℚ × ℚ × ℚ × ℚ :=
  (mix a.1 b.1 (smoothStep control),
   mix a.2.1 b.2.1 (smoothStep control),
   mix a.2.2.1 b.2.2.1 (smoothStep control),
   mix a.2.2.2 b.2.2.2 (smoothStep control))

end Utils

/-! ## GridDimensions (src/grid/cellGrid.ts) -/

/-- `GridDimensions`: three half-extents describing a doubled-size grid. -/
structure GridDimensions where
  X : ℤ
  Y : ℤ
  Z : ℤ
deriving DecidableEq, Repr

namespace GridDimensions

/-- `indexOf(x,y,z) = (x + X) * 4 * Y * Z + (y + Y) * 2 * Z + (z + Z)`. -/
def indexOf (d : GridDimensions) (x y z : ℤ) : ℤ :=
  (x + d.X) * 4 * d.Y * d.Z + (y + d.Y) * 2 * d.Z + (z + d.Z)

/-- `inBounds(x,y,z)`: note the asymmetry in the source — `x < X` and `y < Y`
are strict but the z-axis upper check is `z <= Z` (inclusive). -/
def inBounds (d : GridDimensions) (x y z : ℤ) : Bool :=
  x ≥ -d.X && x < d.X && y ≥ -d.Y && y < d.Y && z ≥ -d.Z && z ≤ d.Z

/-- Integer range `[a, b)` as a list, in increasing order. -/
def rangeZ (a b : ℤ) : List ℤ := (List.range (b - a).toNat).map fun (n : ℕ) => a + (n : ℤ)

/-- The coordinate enumeration produced by the `[Symbol.iterator]` of
`GridDimensions`: lexicographic over `[-X, X) × [-Y, Y) × [-Z, Z)`
(the iterator resets `k` once it reaches `Z`, so `z = Z` is never yielded,
despite being accepted by `inBounds`). -/
def coordList (d : GridDimensions) : List (ℤ × ℤ × ℤ) :=
  (rangeZ (-d.X) d.X).flatMap fun i =>
    (rangeZ (-d.Y) d.Y).flatMap fun j =>
      (rangeZ (-d.Z) d.Z).map fun k => (i, j, k)

end GridDimensions

/-! ## CellGrid (src/grid/cellGrid.ts) -/

/-- `CellGrid`: dimensions, flat cell storage (with possible holes), state count. -/
structure CellGrid where
  dims : GridDimensions
  cells : List (Option ℤ)
  states : ℤ := 2
deriving DecidableEq, Repr

namespace CellGrid

/-- `makeEmpty(dims, states = 2)`: `Array(8*X*Y*Z).fill(0)`. -/
def makeEmpty (dims : GridDimensions) (states : ℤ := 2) : CellGrid :=
  ⟨dims, List.replicate (8 * dims.X * dims.Y * dims.Z).toNat (some 0), states⟩

/-- `makeFull(dims, states = 2)`: `Array(8*X*Y*Z).fill(1)` — the fill value in
the source is the literal `1`, not `states - 1`. -/
def makeFull (dims : GridDimensions) (states : ℤ := 2) : CellGrid :=
  ⟨dims, List.replicate (8 * dims.X * dims.Y * dims.Z).toNat (some 1), states⟩

/-- `makeRandom(dims, prob = 0.5, states = 2)`: each slot is `states - 1` when
`Math.random() < prob`, else `0`.  The constructor call in the source passes
only `(dims, cellArray)`, so the grid's `states` field takes its default `2`
regardless of the `states` argument.  `rand i` is the `Math.random()` sample
drawn for slot `i`. -/
def makeRandom (dims : GridDimensions) (prob : ℚ := 1/2) (states : ℤ := 2)
    (rand : ℕ → ℚ) : CellGrid :=
  ⟨dims,
   (List.range (8 * dims.X * dims.Y * dims.Z).toNat).map fun i =>
     some (if rand i < prob then states - 1 else 0),
   2⟩

/-- `makeFromCells(dims, cells, states = 2)`: succeeds iff
`8 * X * Y * Z == cells.length`. -/
def makeFromCells (dims : GridDimensions) (cells : List (Option ℤ))
    (states : ℤ := 2) : Option CellGrid :=
  if 8 * dims.X * dims.Y * dims.Z = (cells.length : ℤ)
  then some ⟨dims, cells, states⟩ else none

/-- `getCell(x,y,z)`: `null` when out of bounds; otherwise the flat-array read
(`undefined` — i.e. `none` — on a hole or past-the-end index). -/
def getCell (g : CellGrid) (x y z : ℤ) : Option ℤ :=
  if g.dims.inBounds x y z
  then (g.cells[(g.dims.indexOf x y z).toNat]?).join
  else none

/-- `isVisible(x,y,z)`: `cell != null && cell > 0`. -/
def isVisible (g : CellGrid) (x y z : ℤ) : Bool :=
  match g.getCell x y z with
  | some c => c > 0
  | none => false

/-- `isLive(x,y,z)`: `cell != null && cell == states - 1`. -/
def isLive (g : CellGrid) (x y z : ℤ) : Bool :=
  match g.getCell x y z with
  | some c => c = g.states - 1
  | none => false

/-- The 27 positions scanned by the three nested loops of `neighbourPop`
(`i` from `x-1` to `x+1`, then `j`, then `k`). -/
def nbhdCube (x y z : ℤ) : List (ℤ × ℤ × ℤ) :=
  [x - 1, x, x + 1].flatMap fun i =>
    [y - 1, y, y + 1].flatMap fun j =>
      [z - 1, z, z + 1].map fun k => (i, j, k)

/-- `neighbourPop(x,y,z)`: count `isLive` over the 3×3×3 cube, then decrement
once if the centre itself is live. -/
def neighbourPop (g : CellGrid) (x y z : ℤ) : ℕ :=
  let count := (nbhdCube x y z).countP fun c => g.isLive c.1 c.2.1 c.2.2
  if g.isLive x y z then count - 1 else count

end CellGrid

/-! ## Face (src/mesh/face.ts) -/

/-- `SIDE`: the three rendered face directions. -/
inductive SIDE where
  | XNEG
  | YPOS
  | ZNEG
deriving DecidableEq, Repr

/-- `SIDES`: the numeric enum values, in declaration order. -/
def SIDES : List SIDE := [.XNEG, .YPOS, .ZNEG]

/-- `directions`: vector representation of each side. -/
def directions : SIDE → ℤ × ℤ × ℤ
  | .XNEG => (-1, 0, 0)
  | .YPOS => (0, 1, 0)
  | .ZNEG => (0, 0, -1)

/-- `Face`: voxel coordinate, side, and four per-vertex AO values. -/
structure Face where
  x : ℤ
  y : ℤ
  z : ℤ
  side : SIDE
  aos : ℚ × ℚ × ℚ × ℚ
deriving DecidableEq, Repr

namespace Face

/-- `makeAllPos(x, y, z, aos = [1,1,1,1])`. -/
def makeAllPos (x y z : ℤ) (aos : ℚ × ℚ × ℚ × ℚ := (1, 1, 1, 1)) : List Face :=
  SIDES.map fun side => ⟨x, y, z, side, aos⟩

/-- `vertexAO(side1, side2, corner)`. -/
def vertexAO (side1 side2 corner : Bool) : ℚ :=
  if side1 && side2 then 1/4
  else if (side1 && corner) || (side2 && corner) then 1/2
  else if side1 || side2 || corner then 3/4
  else 1

/-- `sideAOs(adj)`: defensive `[1,1,1,1]` unless exactly 8 neighbour flags. -/
def sideAOs (adj : List Bool) : ℚ × ℚ × ℚ × ℚ :=
  if adj.length ≠ 8 then (1, 1, 1, 1)
  else
    (vertexAO (adj.getD 0 false) (adj.getD 2 false) (adj.getD 1 false),
     vertexAO (adj.getD 2 false) (adj.getD 4 false) (adj.getD 3 false),
     vertexAO (adj.getD 0 false) (adj.getD 6 false) (adj.getD 7 false),
     vertexAO (adj.getD 4 false) (adj.getD 6 false) (adj.getD 5 false))

/-- `faceAOs(cellGrid, x, y, z, side)`: the 8 in-plane neighbour reads, in
source order. -/
def faceAOs (cellGrid : CellGrid) (x y z : ℤ) : SIDE → ℚ × ℚ × ℚ × ℚ
  | .XNEG => sideAOs
      [cellGrid.isVisible (x - 1) y (z + 1),
       cellGrid.isVisible (x - 1) (y - 1) (z + 1),
       cellGrid.isVisible (x - 1) (y - 1) z,
       cellGrid.isVisible (x - 1) (y - 1) (z - 1),
       cellGrid.isVisible (x - 1) y (z - 1),
       cellGrid.isVisible (x - 1) (y + 1) (z - 1),
       cellGrid.isVisible (x - 1) (y + 1) z,
       cellGrid.isVisible (x - 1) (y + 1) (z + 1)]
  | .YPOS => sideAOs
      [cellGrid.isVisible x (y + 1) (z + 1),
       cellGrid.isVisible (x - 1) (y + 1) (z + 1),
       cellGrid.isVisible (x - 1) (y + 1) z,
       cellGrid.isVisible (x - 1) (y + 1) (z - 1),
       cellGrid.isVisible x (y + 1) (z - 1),
       cellGrid.isVisible (x + 1) (y + 1) (z - 1),
       cellGrid.isVisible (x + 1) (y + 1) z,
       cellGrid.isVisible (x + 1) (y + 1) (z + 1)]
  | .ZNEG => sideAOs
      [cellGrid.isVisible (x - 1) y (z - 1),
       cellGrid.isVisible (x - 1) (y - 1) (z - 1),
       cellGrid.isVisible x (y - 1) (z - 1),
       cellGrid.isVisible (x + 1) (y - 1) (z - 1),
       cellGrid.isVisible (x + 1) y (z - 1),
       cellGrid.isVisible (x + 1) (y + 1) (z - 1),
       cellGrid.isVisible x (y + 1) (z - 1),
       cellGrid.isVisible (x - 1) (y + 1) (z - 1)]

/-- `Face.makeFromCell(cellGrid, x, y, z, aoGrid = cellGrid)`: cull against
`cellGrid`, compute AO against `aoGrid`. -/
def makeFromCell (cellGrid : CellGrid) (x y z : ℤ)
    (aoGrid : CellGrid := cellGrid) : List Face :=
  if ¬cellGrid.isVisible x y z then []
  else
    let visSides := SIDES.filter fun side =>
      let dir := directions side
      ¬cellGrid.isVisible (x + dir.1) (y + dir.2.1) (z + dir.2.2)
    visSides.map fun side => ⟨x, y, z, side, faceAOs aoGrid x y z side⟩

/-- `makeAllFromCell(x, y, z, aoGrid)`: one face per side, AO from `aoGrid`. -/
def makeAllFromCell (x y z : ℤ) (aoGrid : CellGrid) : List Face :=
  SIDES.map fun side => ⟨x, y, z, side, faceAOs aoGrid x y z side⟩

/-- `relPositions[side]`: the fixed corner layout for each orientation. -/
def relPositions : SIDE → List (ℚ × ℚ × ℚ)
  | .XNEG => [(0, 0, 1), (0, 0, 0), (0, 1, 1), (0, 1, 0)]
  | .YPOS => [(0, 1, 1), (0, 1, 0), (1, 1, 1), (1, 1, 0)]
  | .ZNEG => [(0, 0, 0), (1, 0, 0), (0, 1, 0), (1, 1, 0)]

/-- `getVertices(scale = 1.0)`. -/
def getVertices (f : Face) (scale : ℚ := 1) : List (ℚ × ℚ × ℚ) :=
  (relPositions f.side).map fun v =>
    (scale * (v.1 - 1/2) + (f.x : ℚ),
     scale * (v.2.1 - 1/2) + (f.y : ℚ),
     scale * (v.2.2 - 1/2) + (f.z : ℚ))

/-- `getIndices(offset)`: diagonal split chosen by the AO sums
(`aos[1] + aos[2] > aos[0] + aos[3]`). -/
def getIndices (f : Face) (offset : ℤ) : List ℤ :=
  if f.aos.2.1 + f.aos.2.2.1 > f.aos.1 + f.aos.2.2.2 then
    [offset, offset + 1, offset + 2, offset + 1, offset + 2, offset + 3]
  else
    [offset, offset + 3, offset + 1, offset, offset + 2, offset + 3]

/-- `getNorm()`. -/
def getNorm (f : Face) : ℤ × ℤ × ℤ := directions f.side

end Face

/-! ## GridState (src/grid/gridState.ts) -/

/-- `GridState`: current grid, previous grid, and the binary "core" mask. -/
structure GridState where
  grid : CellGrid
  oldGrid : CellGrid
  core : CellGrid
deriving DecidableEq, Repr

namespace GridState

/-- `makeFromGrid(grid)`: all three fields alias the same grid. -/
def makeFromGrid (grid : CellGrid) : GridState := ⟨grid, grid, grid⟩

/-- The body of `makeUpdated`'s loop for one coordinate: write the rule's
output into the `newCells` accumulator and conditionally write `1` into the
`newCore` accumulator (at the flat index of the coordinate). -/
def updateStep (oldGrid : CellGrid) (rules : ℤ → ℕ → ℤ)
    (acc : List (Option ℤ) × List (Option ℤ)) (c : ℤ × ℤ × ℤ) :
    List (Option ℤ) × List (Option ℤ) :=
  let idx := (oldGrid.dims.indexOf c.1 c.2.1 c.2.2).toNat
  let v := rules ((oldGrid.getCell c.1 c.2.1 c.2.2).getD 0)
                 (oldGrid.neighbourPop c.1 c.2.1 c.2.2)
  (acc.1.set idx (some v),
   if 0 < v ∧ oldGrid.isVisible c.1 c.2.1 c.2.2
   then acc.2.set idx (some 1) else acc.2)

/-- `makeUpdated(oldState, rules)`: one pass over the coordinate enumeration.
`newCells` and `newCore` start as `Array(8*X*Y*Z)` (all holes); each visited
coordinate writes `rules(getCell!, neighbourPop)` into `newCells`, and writes
`1` into `newCore` only when the new value is positive and the cell was
visible (otherwise the slot stays a hole, i.e. `none` — the source never
writes `0`).  The source's non-null assertions (`getCell(...)!` and
`makeFromCells(...)!`) are modelled by `getD`: they are only exercised on
dense grids of matching size, where the default is unreachable. -/
def makeUpdated (oldState : GridState) (rules : ℤ → ℕ → ℤ) : GridState :=
  let oldGrid := oldState.grid
  let dims := oldGrid.dims
  let N := (8 * dims.X * dims.Y * dims.Z).toNat
  let res := (dims.coordList).foldl (updateStep oldGrid rules)
    (List.replicate N none, List.replicate N none)
  { grid := (CellGrid.makeFromCells dims res.1 oldGrid.states).getD
      ⟨dims, res.1, oldGrid.states⟩
    oldGrid := oldGrid
    core := (CellGrid.makeFromCells dims res.2).getD ⟨dims, res.2, 2⟩ }

/-- `skipUpdates(initState, rules, iterations)`: the source iterates with
`for (let _ in \x7b length: iterations \x7d)` — a `for...in` loop over an object
literal whose single enumerable key is `"length"`, so the body runs exactly
once, whatever `iterations` is. -/
def skipUpdates (initState : GridState) (rules : ℤ → ℕ → ℤ)
    (iterations : ℤ) : GridState :=
  let _ := iterations
  (["length"]).foldl (fun current _ => makeUpdated current rules) initState

end GridState

/-! ## AnimFace (src/mesh/animFace.ts) -/

/-- `AnimType`. -/
inductive AnimType where
  | GROW
  | SHRINK
  | TRANSITION
  | AO_ONLY
deriving DecidableEq, Repr

/-- `AnimFace`: optional start face, optional end face, animation kind. -/
structure AnimFace where
  start : Option Face
  finish : Option Face
  type : AnimType
deriving DecidableEq, Repr

namespace AnimFace

/-- `makeGrowing(end)`. -/
def makeGrowing (e : Face) : AnimFace := ⟨none, some e, .GROW⟩

/-- `makeShrinking(start)`. -/
def makeShrinking (s : Face) : AnimFace := ⟨some s, none, .SHRINK⟩

/-- `makeTransition(start, end, type = "TRANSITION")`. -/
def makeTransition (s e : Face) (type : AnimType := .TRANSITION) : AnimFace :=
  ⟨some s, some e, type⟩

/-- `AnimFace.makeFromCell(state, x, y, z)`: classify by old/new visibility.
In the both-visible branch the source writes `endFaces[i]` (an unchecked
index), modelled by `endFaces[i]?`. -/
def makeFromCell (state : GridState) (x y z : ℤ) : List AnimFace :=
  let cellStart := state.oldGrid.isVisible x y z
  let cellEnd := state.grid.isVisible x y z
  if ¬cellStart ∧ ¬cellEnd then []
  else if ¬cellStart then
    (Face.makeAllFromCell x y z state.grid).map makeGrowing
  else if ¬cellEnd then
    (Face.makeAllFromCell x y z state.oldGrid).map makeShrinking
  else
    let startFaces := Face.makeFromCell state.core x y z state.oldGrid
    let endFaces := Face.makeFromCell state.core x y z state.grid
    startFaces.mapIdx fun i s => ⟨some s, endFaces[i]?, .AO_ONLY⟩

/-- `makeFromGridState(state)`: concatenate over the coordinate enumeration. -/
def makeFromGridState (state : GridState) : List AnimFace :=
  (state.grid.dims.coordList).foldl
    (fun faces c => faces ++ makeFromCell state c.1 c.2.1 c.2.2) []

/-- `getVertices(progress)`: `cosFn` stands for the floating-point `Math.cos`.
`none` models the `TypeError` a null `start!`/`end!` dereference would throw. -/
def getVertices (af : AnimFace) (cosFn : ℚ → ℚ) (progress : ℚ := 0) :
    Option (List (ℚ × ℚ × ℚ)) :=
  match af.type with
  | .GROW => af.finish.map fun e =>
      e.getVertices (Utils.mix (1 - cosFn (10 * progress * progress)) 1
        (Utils.smoothStep progress))
  | .SHRINK => af.start.map fun s =>
      s.getVertices (1 - Utils.smoothStep (2 * progress))
  | .TRANSITION =>
      af.finish.bind fun e =>
        af.start.map fun s =>
          let endVerts := e.getVertices
          (s.getVertices).mapIdx fun i v =>
            Utils.mix3 v (endVerts.getD i (0, 0, 0)) (Utils.smoothStep progress)
  | .AO_ONLY => af.start.map fun s => s.getVertices

/-- `getNorm(progress)`. -/
def getNorm (af : AnimFace) (progress : ℚ := 0) : Option (ℚ × ℚ × ℚ) :=
  let q : ℤ × ℤ × ℤ → ℚ × ℚ × ℚ := fun n => ((n.1 : ℚ), (n.2.1 : ℚ), (n.2.2 : ℚ))
  match af.type with
  | .GROW => af.finish.map fun e => q e.getNorm
  | .SHRINK => af.start.map fun s => q s.getNorm
  | .TRANSITION =>
      af.start.bind fun s =>
        af.finish.map fun e =>
          Utils.mix3 (q s.getNorm) (q e.getNorm) (Utils.smoothStep progress)
  | .AO_ONLY => af.start.map fun s => q s.getNorm

/-- `getIndices(offset)`: end face's indices for `GROW`, else start face's. -/
def getIndices (af : AnimFace) (offset : ℤ) : Option (List ℤ) :=
  if af.type = .GROW
  then af.finish.map fun e => e.getIndices offset
  else af.start.map fun s => s.getIndices offset

/-- `getAOs(progress)`: `control = smoothStep(progress)` fed to `mix4` (which
internally applies `smoothStep` to it once more). -/
def getAOs (af : AnimFace) (progress : ℚ := 0) : Option (ℚ × ℚ × ℚ × ℚ) :=
  let control := Utils.smoothStep progress
  match af.type with
  | .GROW => af.finish.map fun e => Utils.mix4 (1, 1, 1, 1) e.aos control
  | .SHRINK => af.start.map fun s => Utils.mix4 s.aos (1, 1, 1, 1) control
  | .TRANSITION | .AO_ONLY =>
      af.start.bind fun s =>
        af.finish.map fun e => Utils.mix4 s.aos e.aos control

end AnimFace

/-! ## Claim-side definitions

These follow the wording of the specification, for comparison with the
source-side definitions above. -/

/-- The coordinate cuboid `[-X, X) × [-Y, Y) × [-Z, Z)` actually enumerated by
the iterator (z-axis upper bound strict). -/
def inCuboid (d : GridDimensions) (x y z : ℤ) : Prop :=
  -d.X ≤ x ∧ x < d.X ∧ -d.Y ≤ y ∧ y < d.Y ∧ -d.Z ≤ z ∧ z < d.Z

instance (d : GridDimensions) (x y z : ℤ) : Decidable (inCuboid d x y z) := by
  unfold inCuboid; infer_instance

/-- The 26 offsets at Chebyshev distance exactly 1 from the origin, as the
specification describes the neighbourhood ("all three axes ±1, Chebyshev
radius 1, excluding the center"). -/
def chebOffsets : List (ℤ × ℤ × ℤ) :=
  (([-1, 0, 1] : List ℤ).flatMap fun dx =>
    ([-1, 0, 1] : List ℤ).flatMap fun dy =>
      ([-1, 0, 1] : List ℤ).map fun dz => (dx, dy, dz)).filter
    fun o => max (max o.1.natAbs o.2.1.natAbs) o.2.2.natAbs = 1

/-- The 26 positions at Chebyshev distance 1 from `(x, y, z)`. -/
def chebNeighbours (x y z : ℤ) : List (ℤ × ℤ × ℤ) :=
  chebOffsets.map fun o => (x + o.1, y + o.2.1, z + o.2.2)

/-- Plain per-component linear interpolation of 4-tuples with mixing factor
`t` (`t * b + (1 - t) * a`), as the specification describes AO mixing. -/
def lerp4 (a b : ℚ × ℚ × ℚ × ℚ) (t : ℚ) : ℚ × ℚ × ℚ × ℚ :=
  (t * b.1 + (1 - t) * a.1,
   t * b.2.1 + (1 - t) * a.2.1,
   t * b.2.2.1 + (1 - t) * a.2.2.1,
   t * b.2.2.2 + (1 - t) * a.2.2.2)

/-! ## Helper lemmas: ranges and the coordinate enumeration -/

namespace GridDimensions

lemma mem_rangeZ {a b x : ℤ} : x ∈ rangeZ a b ↔ a ≤ x ∧ x < b := by
  unfold rangeZ
  simp only [List.mem_map, List.mem_range]
  constructor
  · rintro ⟨n, hn, rfl⟩; omega
  · rintro ⟨h1, h2⟩; exact ⟨(x - a).toNat, by omega, by omega⟩

lemma mem_coordList {d : GridDimensions} {c : ℤ × ℤ × ℤ} :
    c ∈ d.coordList ↔ inCuboid d c.1 c.2.1 c.2.2 := by
  obtain ⟨x, y, z⟩ := c
  unfold coordList inCuboid
  simp only [List.mem_flatMap, List.mem_map, Prod.mk.injEq]
  constructor
  · rintro ⟨i, hi, j, hj, k, hk, rfl, rfl, rfl⟩
    rw [mem_rangeZ] at hi hj
    rw [mem_rangeZ] at hk
    omega
  · rintro ⟨hx1, hx2, hy1, hy2, hz1, hz2⟩
    exact ⟨x, mem_rangeZ.mpr ⟨hx1, hx2⟩, y, mem_rangeZ.mpr ⟨hy1, hy2⟩,
      z, mem_rangeZ.mpr ⟨hz1, hz2⟩, rfl, rfl, rfl⟩

lemma nodup_rangeZ (a b : ℤ) : (rangeZ a b).Nodup := by
  unfold rangeZ
  refine List.Nodup.map_on ?_ (List.nodup_range _)
  intro m _ n _ h
  omega

lemma nodup_coordList (d : GridDimensions) : d.coordList.Nodup := by
  unfold coordList
  rw [List.nodup_flatMap]
  refine ⟨fun i _ => ?_, ?_⟩
  · rw [List.nodup_flatMap]
    refine ⟨fun j _ => ?_, ?_⟩
    · refine List.Nodup.map_on ?_ (nodup_rangeZ _ _)
      intro m _ n _ h
      exact congrArg (fun p => p.2.2) h
    · refine (nodup_rangeZ _ _).imp ?_
      intro j j' hjj' t ht ht'
      simp only [List.mem_map] at ht ht'
      obtain ⟨k, _, rfl⟩ := ht
      obtain ⟨k', _, h⟩ := ht'
      exact hjj' (congrArg (fun p => p.2.1) h.symm)
  · refine (nodup_rangeZ _ _).imp ?_
    intro i i' hii' t ht ht'
    simp only [List.mem_flatMap, List.mem_map] at ht ht'
    obtain ⟨j, _, k, _, rfl⟩ := ht
    obtain ⟨j', _, k', _, h⟩ := ht'
    exact hii' (congrArg (fun p => p.1) h.symm)

/-! ## Helper lemmas: `indexOf` is a bijection on the enumerated cuboid -/

lemma indexOf_bounds {d : GridDimensions} {x y z : ℤ}
    (h : inCuboid d x y z) :
    0 ≤ d.indexOf x y z ∧ d.indexOf x y z < 8 * d.X * d.Y * d.Z := by
  obtain ⟨hx1, hx2, hy1, hy2, hz1, hz2⟩ := h
  have hX : 0 < d.X := by omega
  have hY : 0 < d.Y := by omega
  have hZ : 0 < d.Z := by omega
  unfold indexOf
  constructor
  · have h1 : 0 ≤ (x + d.X) * 4 * d.Y * d.Z :=
      mul_nonneg (mul_nonneg (mul_nonneg (by omega) (by norm_num)) hY.le) hZ.le
    have h2 : 0 ≤ (y + d.Y) * 2 * d.Z :=
      mul_nonneg (mul_nonneg (by omega) (by norm_num)) hZ.le
    omega
  · nlinarith [mul_le_mul_of_nonneg_right
      (mul_le_mul_of_nonneg_right (show (x + d.X) * 4 ≤ 4 * (2 * d.X - 1) by omega)
        hY.le) hZ.le,
      mul_le_mul_of_nonneg_right (show (y + d.Y) * 2 ≤ 2 * (2 * d.Y - 1) by omega) hZ.le]

/-- Uniqueness of quotient/remainder decompositions. -/
lemma decomp_unique {M a₁ r₁ a₂ r₂ : ℤ} (hM : 0 < M)
    (h : a₁ * M + r₁ = a₂ * M + r₂)
    (h₁ : 0 ≤ r₁) (h₁' : r₁ < M) (h₂ : 0 ≤ r₂) (h₂' : r₂ < M) :
    a₁ = a₂ ∧ r₁ = r₂ := by
  have hd : (a₁ - a₂) * M = r₂ - r₁ := by ring_nf; linarith
  have habs : -M < r₂ - r₁ ∧ r₂ - r₁ < M := by omega
  have : a₁ - a₂ = 0 := by
    rcases lt_trichotomy (a₁ - a₂) 0 with hlt | heq | hgt
    · nlinarith
    · exact heq
    · nlinarith
  constructor <;> [omega; nlinarith]

lemma indexOf_inj {d : GridDimensions} {x₁ y₁ z₁ x₂ y₂ z₂ : ℤ}
    (h₁ : inCuboid d x₁ y₁ z₁) (h₂ : inCuboid d x₂ y₂ z₂)
    (heq : d.indexOf x₁ y₁ z₁ = d.indexOf x₂ y₂ z₂) :
    x₁ = x₂ ∧ y₁ = y₂ ∧ z₁ = z₂ := by
  obtain ⟨ha1, ha2, hb1, hb2, hc1, hc2⟩ := h₁
  obtain ⟨hd1, hd2, he1, he2, hf1, hf2⟩ := h₂
  have hY : 0 < d.Y := by omega
  have hZ : 0 < d.Z := by omega
  have hYZ : 0 < 4 * d.Y * d.Z := mul_pos (mul_pos (by norm_num) hY) hZ
  have h2Z : 0 < 2 * d.Z := mul_pos (by norm_num) hZ
  unfold indexOf at heq
  have hform : (x₁ + d.X) * (4 * d.Y * d.Z) + ((y₁ + d.Y) * (2 * d.Z) + (z₁ + d.Z)) =
      (x₂ + d.X) * (4 * d.Y * d.Z) + ((y₂ + d.Y) * (2 * d.Z) + (z₂ + d.Z)) := by
    ring_nf
    ring_nf at heq
    linarith
  have hr₁ : 0 ≤ (y₁ + d.Y) * (2 * d.Z) + (z₁ + d.Z) :=
    add_nonneg (mul_nonneg (by omega) h2Z.le) (by omega)
  have hr₁' : (y₁ + d.Y) * (2 * d.Z) + (z₁ + d.Z) < 4 * d.Y * d.Z := by
    nlinarith [mul_le_mul_of_nonneg_right (show y₁ + d.Y ≤ 2 * d.Y - 1 by omega) h2Z.le]
  have hr₂ : 0 ≤ (y₂ + d.Y) * (2 * d.Z) + (z₂ + d.Z) :=
    add_nonneg (mul_nonneg (by omega) h2Z.le) (by omega)
  have hr₂' : (y₂ + d.Y) * (2 * d.Z) + (z₂ + d.Z) < 4 * d.Y * d.Z := by
    nlinarith [mul_le_mul_of_nonneg_right (show y₂ + d.Y ≤ 2 * d.Y - 1 by omega) h2Z.le]
  obtain ⟨hx, hrest⟩ := decomp_unique hYZ hform hr₁ hr₁' hr₂ hr₂'
  obtain ⟨hy, hz⟩ := decomp_unique h2Z hrest (by omega) (by omega) (by omega) (by omega)
  omega

lemma indexOf_surj {d : GridDimensions} (hX : 0 < d.X) (hY : 0 < d.Y)
    (hZ : 0 < d.Z) {n : ℤ} (hn0 : 0 ≤ n) (hn : n < 8 * d.X * d.Y * d.Z) :
    ∃ x y z, inCuboid d x y z ∧ d.indexOf x y z = n := by
  have hYZ : 0 < 4 * d.Y * d.Z := mul_pos (mul_pos (by norm_num) hY) hZ
  have h2Z : 0 < 2 * d.Z := mul_pos (by norm_num) hZ
  refine ⟨n / (4 * d.Y * d.Z) - d.X,
          (n % (4 * d.Y * d.Z)) / (2 * d.Z) - d.Y,
          (n % (4 * d.Y * d.Z)) % (2 * d.Z) - d.Z, ?_, ?_⟩
  · have e1 : 0 ≤ n % (4 * d.Y * d.Z) := Int.emod_nonneg n (by positivity)
    have e2 : n % (4 * d.Y * d.Z) < 4 * d.Y * d.Z := Int.emod_lt_of_pos n hYZ
    have e3 : 0 ≤ (n % (4 * d.Y * d.Z)) % (2 * d.Z) := Int.emod_nonneg _ h2Z.ne'
    have e4 : (n % (4 * d.Y * d.Z)) % (2 * d.Z) < 2 * d.Z := Int.emod_lt_of_pos _ h2Z
    have e5 : 0 ≤ n / (4 * d.Y * d.Z) := Int.ediv_nonneg hn0 hYZ.le
    have e6 : n / (4 * d.Y * d.Z) < 2 * d.X := by
      by_contra hcon
      push_neg at hcon
      have := Int.ediv_add_emod n (4 * d.Y * d.Z)
      nlinarith
    have e7 : 0 ≤ (n % (4 * d.Y * d.Z)) / (2 * d.Z) := Int.ediv_nonneg e1 h2Z.le
    have e8 : (n % (4 * d.Y * d.Z)) / (2 * d.Z) < 2 * d.Y := by
      by_contra hcon
      push_neg at hcon
      have := Int.ediv_add_emod (n % (4 * d.Y * d.Z)) (2 * d.Z)
      nlinarith
    exact ⟨by omega, by omega, by omega, by omega, by omega, by omega⟩
  · unfold indexOf
    have q1 := Int.ediv_add_emod n (4 * d.Y * d.Z)
    have q2 := Int.ediv_add_emod (n % (4 * d.Y * d.Z)) (2 * d.Z)
    ring_nf
    ring_nf at q1 q2
    linarith

end GridDimensions

/-! ## Helper lemmas: the `makeUpdated` accumulation loop -/

namespace GridState

/-- Flat index of a coordinate triple, as a natural number. -/
def idxN (d : GridDimensions) (c : ℤ × ℤ × ℤ) : ℕ :=
  (d.indexOf c.1 c.2.1 c.2.2).toNat

/-- The value `makeUpdated` writes at a coordinate. -/
def ruleVal (oldGrid : CellGrid) (rules : ℤ → ℕ → ℤ) (c : ℤ × ℤ × ℤ) : ℤ :=
  rules ((oldGrid.getCell c.1 c.2.1 c.2.2).getD 0)
        (oldGrid.neighbourPop c.1 c.2.1 c.2.2)

lemma updateStep_fst (g : CellGrid) (r : ℤ → ℕ → ℤ) (acc : List (Option ℤ) × List (Option ℤ))
    (c : ℤ × ℤ × ℤ) : (updateStep g r acc c).1 = acc.1.set (idxN g.dims c) (some (ruleVal g r c)) := rfl

lemma updateStep_snd (g : CellGrid) (r : ℤ → ℕ → ℤ) (acc : List (Option ℤ) × List (Option ℤ))
    (c : ℤ × ℤ × ℤ) : (updateStep g r acc c).2 =
      if 0 < ruleVal g r c ∧ g.isVisible c.1 c.2.1 c.2.2
      then acc.2.set (idxN g.dims c) (some 1) else acc.2 := rfl

lemma foldl_updateStep_lengths (g : CellGrid) (r : ℤ → ℕ → ℤ)
    (L : List (ℤ × ℤ × ℤ)) (acc : List (Option ℤ) × List (Option ℤ)) :
    (L.foldl (updateStep g r) acc).1.length = acc.1.length ∧
    (L.foldl (updateStep g r) acc).2.length = acc.2.length := by
  induction L generalizing acc with
  | nil => exact ⟨rfl, rfl⟩
  | cons a L ih =>
      rw [List.foldl_cons]
      refine ⟨(ih _).1.trans ?_, (ih _).2.trans ?_⟩
      · rw [updateStep_fst, List.length_set]
      · rw [updateStep_snd]
        split <;> simp [List.length_set]

lemma foldl_updateStep_untouched (g : CellGrid) (r : ℤ → ℕ → ℤ)
    (L : List (ℤ × ℤ × ℤ)) (acc : List (Option ℤ) × List (Option ℤ)) (j : ℕ)
    (h : ∀ c ∈ L, idxN g.dims c ≠ j) :
    (L.foldl (updateStep g r) acc).1[j]? = acc.1[j]? ∧
    (L.foldl (updateStep g r) acc).2[j]? = acc.2[j]? := by
  induction L generalizing acc with
  | nil => exact ⟨rfl, rfl⟩
  | cons a L ih =>
      rw [List.foldl_cons]
      have ha : idxN g.dims a ≠ j := h a (List.mem_cons_self a L)
      have ih' := ih (updateStep g r acc a) fun c hc => h c (List.mem_cons_of_mem a hc)
      refine ⟨ih'.1.trans ?_, ih'.2.trans ?_⟩
      · rw [updateStep_fst, List.getElem?_set_ne ha]
      · rw [updateStep_snd]
        split
        · rw [List.getElem?_set_ne ha]
        · rfl

lemma foldl_updateStep_get (g : CellGrid) (r : ℤ → ℕ → ℤ)
    (L : List (ℤ × ℤ × ℤ)) (acc : List (Option ℤ) × List (Option ℤ))
    (c : ℤ × ℤ × ℤ)
    (hnodup : (L.map (idxN g.dims)).Nodup) (hc : c ∈ L)
    (h1 : idxN g.dims c < acc.1.length) (h2 : idxN g.dims c < acc.2.length) :
    (L.foldl (updateStep g r) acc).1[idxN g.dims c]? = some (some (ruleVal g r c)) ∧
    (L.foldl (updateStep g r) acc).2[idxN g.dims c]? =
      (if 0 < ruleVal g r c ∧ g.isVisible c.1 c.2.1 c.2.2
       then some (some 1) else acc.2[idxN g.dims c]?) := by
  induction L generalizing acc with
  | nil => cases hc
  | cons a L ih =>
      rw [List.map_cons, List.nodup_cons] at hnodup
      obtain ⟨hnot, hnd⟩ := hnodup
      rw [List.foldl_cons]
      rcases List.mem_cons.mp hc with rfl | hmem
      · -- the head is the coordinate of interest; the tail never touches its index
        have huntouched := foldl_updateStep_untouched g r L (updateStep g r acc c)
          (idxN g.dims c) fun c' hc' heq => hnot (heq ▸ List.mem_map_of_mem (idxN g.dims) hc')
        refine ⟨huntouched.1.trans ?_, huntouched.2.trans ?_⟩
        · rw [updateStep_fst, List.getElem?_set_self h1]
        · rw [updateStep_snd]
          split
          · rw [List.getElem?_set_self h2]
          · rfl
      · have hne : idxN g.dims a ≠ idxN g.dims c := fun heq =>
          hnot (heq ▸ List.mem_map_of_mem (idxN g.dims) hmem)
        have h1' : idxN g.dims c < (updateStep g r acc a).1.length := by
          rw [updateStep_fst, List.length_set]; exact h1
        have h2' : idxN g.dims c < (updateStep g r acc a).2.length := by
          rw [updateStep_snd]; split
          · rw [List.length_set]; exact h2
          · exact h2
        have ih' := ih (updateStep g r acc a) hnd hmem h1' h2'
        refine ⟨ih'.1, ih'.2.trans ?_⟩
        split
        · rfl
        · rw [updateStep_snd]
          split
          · rw [List.getElem?_set_ne hne]
          · rfl

/-- The mapped flat indices of the coordinate enumeration are distinct. -/
lemma nodup_idxN_coordList (d : GridDimensions) :
    (d.coordList.map (idxN d)).Nodup := by
  refine List.Nodup.map_on ?_ (GridDimensions.nodup_coordList d)
  intro c hc c' hc' heq
  have hcub : inCuboid d c.1 c.2.1 c.2.2 := GridDimensions.mem_coordList.mp hc
  have hcub' : inCuboid d c'.1 c'.2.1 c'.2.2 := GridDimensions.mem_coordList.mp hc'
  have hb := GridDimensions.indexOf_bounds hcub
  have hb' := GridDimensions.indexOf_bounds hcub'
  have hidx : d.indexOf c.1 c.2.1 c.2.2 = d.indexOf c'.1 c'.2.1 c'.2.2 := by
    unfold idxN at heq; omega
  obtain ⟨e1, e2, e3⟩ := GridDimensions.indexOf_inj hcub hcub' hidx
  exact Prod.ext e1 (Prod.ext e2 e3)

end GridState

/-! ## Helper lemmas: the neighbourhood scan -/

namespace CellGrid

/-- The 3×3×3 scan of `neighbourPop` is, up to permutation, the centre cell
followed by the 26 Chebyshev-distance-1 neighbours. -/
lemma nbhdCube_perm (x y z : ℤ) :
    (nbhdCube x y z).Perm ((x, y, z) :: chebNeighbours x y z) := by
  have h1 : nbhdCube x y z =
      [(x-1,y-1,z-1),(x-1,y-1,z),(x-1,y-1,z+1),(x-1,y,z-1),(x-1,y,z),(x-1,y,z+1),
       (x-1,y+1,z-1),(x-1,y+1,z),(x-1,y+1,z+1),(x,y-1,z-1),(x,y-1,z),(x,y-1,z+1),
       (x,y,z-1)] ++ (x,y,z) ::
      [(x,y,z+1),(x,y+1,z-1),(x,y+1,z),(x,y+1,z+1),(x+1,y-1,z-1),(x+1,y-1,z),
       (x+1,y-1,z+1),(x+1,y,z-1),(x+1,y,z),(x+1,y,z+1),(x+1,y+1,z-1),(x+1,y+1,z),
       (x+1,y+1,z+1)] := rfl
  have h2 : chebNeighbours x y z =
      [(x-1,y-1,z-1),(x-1,y-1,z),(x-1,y-1,z+1),(x-1,y,z-1),(x-1,y,z),(x-1,y,z+1),
       (x-1,y+1,z-1),(x-1,y+1,z),(x-1,y+1,z+1),(x,y-1,z-1),(x,y-1,z),(x,y-1,z+1),
       (x,y,z-1)] ++
      [(x,y,z+1),(x,y+1,z-1),(x,y+1,z),(x,y+1,z+1),(x+1,y-1,z-1),(x+1,y-1,z),
       (x+1,y-1,z+1),(x+1,y,z-1),(x+1,y,z),(x+1,y,z+1),(x+1,y+1,z-1),(x+1,y+1,z),
       (x+1,y+1,z+1)] := by
    show List.map _ chebOffsets = _
    simp only [show chebOffsets =
      [(-1,-1,-1),(-1,-1,0),(-1,-1,1),(-1,0,-1),(-1,0,0),(-1,0,1),
       (-1,1,-1),(-1,1,0),(-1,1,1),(0,-1,-1),(0,-1,0),(0,-1,1),
       (0,0,-1),(0,0,1),(0,1,-1),(0,1,0),(0,1,1),(1,-1,-1),(1,-1,0),
       (1,-1,1),(1,0,-1),(1,0,0),(1,0,1),(1,1,-1),(1,1,0),(1,1,1)] from rfl,
      List.map_cons, List.map_nil, List.cons_append, List.nil_append,
      List.cons.injEq, Prod.mk.injEq, and_true, true_and]
    omega
  rw [h1, h2]
  exact List.perm_middle

/-- `neighbourPop` counts exactly the live cells among the 26 neighbours at
Chebyshev distance 1 (shared by claims about the update rule). -/
lemma neighbourPop_eq_chebCount (g : CellGrid) (x y z : ℤ) :
    g.neighbourPop x y z =
      (chebNeighbours x y z).countP fun c => g.isLive c.1 c.2.1 c.2.2 := by
  unfold neighbourPop
  rw [List.Perm.countP_eq _ (nbhdCube_perm x y z), List.countP_cons]
  cases hp : g.isLive x y z <;> simp [hp]

end CellGrid

/-! ## Helper lemmas: `AnimFace.makeFromCell` -/

namespace AnimFace

/-- Pairing two same-source maps by index: the `startFaces.map((start, i) =>`
construction of `makeFromCell` matches faces of equal orientation. -/
lemma mapIdx_pair {α β : Type} (l : List α) (F G : α → β)
    (mk : β → Option β → AnimFace) :
    (l.map F).mapIdx (fun i s => mk s (l.map G)[i]?) =
      l.map fun a => mk (F a) (some (G a)) := by
  induction l with
  | nil => rfl
  | cons a l ih =>
      simp only [List.map_cons, List.mapIdx_cons, List.getElem?_cons_zero,
        List.getElem?_cons_succ]
      exact congrArg _ (ih ..)

/-- Case analysis of `AnimFace.makeFromCell`, with the both-visible branch
resolved into one AO-only face per orientation kept by core-grid culling,
its start-face AO from the old grid and its end-face AO from the new grid. -/
lemma makeFromCell_cases (state : GridState) (x y z : ℤ) :
    makeFromCell state x y z =
      if state.oldGrid.isVisible x y z then
        if state.grid.isVisible x y z then
          if state.core.isVisible x y z then
            (SIDES.filter fun side =>
              let dir := directions side
              ¬state.core.isVisible (x + dir.1) (y + dir.2.1) (z + dir.2.2)).map
              fun side =>
                ⟨some ⟨x, y, z, side, Face.faceAOs state.oldGrid x y z side⟩,
                 some ⟨x, y, z, side, Face.faceAOs state.grid x y z side⟩, .AO_ONLY⟩
          else []
        else
          SIDES.map fun side =>
            ⟨some ⟨x, y, z, side, Face.faceAOs state.oldGrid x y z side⟩, none, .SHRINK⟩
      else
        if state.grid.isVisible x y z then
          SIDES.map fun side =>
            ⟨none, some ⟨x, y, z, side, Face.faceAOs state.grid x y z side⟩, .GROW⟩
        else [] := by
  unfold makeFromCell
  cases hs : state.oldGrid.isVisible x y z <;>
    cases he : state.grid.isVisible x y z <;>
      simp only [Bool.false_eq_true, not_false_eq_true, not_true_eq_false,
        and_true, and_false, true_and, false_and, if_true, if_false,
        ite_true, ite_false, and_self]
  · simp [Face.makeAllFromCell, makeGrowing]
  · simp [Face.makeAllFromCell, makeShrinking]
  · cases hc : state.core.isVisible x y z <;>
      simp only [Face.makeFromCell, hc, Bool.false_eq_true, not_false_eq_true,
        if_true, not_true_eq_false, if_false, ite_true, ite_false]
    · simp
    · exact mapIdx_pair _ _ _ fun s e => ⟨some s, e, .AO_ONLY⟩

/-- `makeFromGridState` is the concatenation of `makeFromCell` over the
coordinate enumeration. -/
lemma makeFromGridState_eq (state : GridState) :
    makeFromGridState state =
      state.grid.dims.coordList.flatMap fun c => makeFromCell state c.1 c.2.1 c.2.2 := by
  unfold makeFromGridState
  generalize state.grid.dims.coordList = L
  suffices h : ∀ acc : List AnimFace,
      L.foldl (fun faces c => faces ++ makeFromCell state c.1 c.2.1 c.2.2) acc =
        acc ++ L.flatMap fun c => makeFromCell state c.1 c.2.1 c.2.2 by
    simpa using h []
  induction L with
  | nil => simp
  | cons a L ih => intro acc; simp [ih]

/-- Every face built by `makeFromCell` has one of three shapes, each carrying
the endpoints its kind requires (in the both-visible branch the start and end
face lists are culled against the same core grid, so the index-paired end
face always exists). -/
lemma makeFromCell_shapes (state : GridState) (x y z : ℤ) (af : AnimFace)
    (h : af ∈ makeFromCell state x y z) :
    (∃ f, af = ⟨none, some f, .GROW⟩) ∨ (∃ f, af = ⟨some f, none, .SHRINK⟩) ∨
    (∃ s e, af = ⟨some s, some e, .AO_ONLY⟩) := by
  rw [makeFromCell_cases] at h
  split at h
  · split at h
    · split at h
      · simp only [List.mem_map] at h
        obtain ⟨side, _, rfl⟩ := h
        exact Or.inr (Or.inr ⟨_, _, rfl⟩)
      · cases h
    · simp only [List.mem_map] at h
      obtain ⟨side, _, rfl⟩ := h
      exact Or.inr (Or.inl ⟨_, rfl⟩)
  · split at h
    · simp only [List.mem_map] at h
      obtain ⟨side, _, rfl⟩ := h
      exact Or.inl ⟨_, rfl⟩
    · cases h

end AnimFace

/-! ## Test fixtures (concrete instances used by counterexamples and witnesses) -/

/-- A 4×4×4 grid (half-extents 2) whose only nonzero cell is a `1` at the
centre coordinate `(0,0,0)`. -/
def singleLiveGrid : CellGrid :=
  ⟨⟨2, 2, 2⟩,
   (CellGrid.makeEmpty ⟨2, 2, 2⟩).cells.set
     ((GridDimensions.mk 2 2 2).indexOf 0 0 0).toNat (some 1), 2⟩

/-- A 2×2×2 grid (half-extents 1) whose only nonzero cell is a `1` at
`(-1,-1,-1)` (flat index 0). -/
def cornerLiveGrid : CellGrid :=
  ⟨⟨1, 1, 1⟩, (CellGrid.makeEmpty ⟨1, 1, 1⟩).cells.set 0 (some 1), 2⟩

/-- The transitionless state of the full 2×2×2 grid. -/
def fullState : GridState := GridState.makeFromGrid (CellGrid.makeFull ⟨1, 1, 1⟩)

/-- The single animated face `makeFromCell` builds for `fullState`'s cell
(0,0,0) (only the +Y neighbour is outside the grid, so only the +Y face
survives core culling). -/
def sampleAnimFace : AnimFace :=
  ⟨some ⟨0, 0, 0, .YPOS, (1, 1, 1, 1)⟩, some ⟨0, 0, 0, .YPOS, (1, 1, 1, 1)⟩, .AO_ONLY⟩

/-! ## Claims -/

/-- **C1** (counterexample).  The claim fails on two points, shown at
half-extents (1,1,1).  First, `inBounds` also accepts `z = Z`, and at the
in-bounds coordinate `(-1,-1,1)` the updated grid's cell does not equal
`rule(old.getCell, old.neighbourPop)` there (the flat index aliases
`(-1,0,-1)`, whose neighbourhood differs: with the rule `(c, n) ↦ n` on a
grid whose only live cell is `(-1,-1,-1)`, the new cell reads 1, not 0).
Second, when the stored condition fails, the core grid's slot is never
written — `getCell` yields an absent value, not 0. -/
theorem claim_C1_counterexample :
    (GridDimensions.mk 1 1 1).inBounds (-1) (-1) 1 = true ∧
    cornerLiveGrid.getCell (-1) (-1) 1 = some 0 ∧
    cornerLiveGrid.neighbourPop (-1) (-1) 1 = 0 ∧
    (GridState.makeUpdated (GridState.makeFromGrid cornerLiveGrid)
        (fun _ n => (n : ℤ))).grid.getCell (-1) (-1) 1 ≠
      some ((fun (_ : ℤ) (n : ℕ) => (n : ℤ)) 0
        (cornerLiveGrid.neighbourPop (-1) (-1) 1)) ∧
    (GridState.makeUpdated (GridState.makeFromGrid (CellGrid.makeEmpty ⟨1, 1, 1⟩))
        (fun _ _ => 0)).grid.getCell (-1) (-1) (-1) = some 0 ∧
    (GridState.makeUpdated (GridState.makeFromGrid (CellGrid.makeEmpty ⟨1, 1, 1⟩))
        (fun _ _ => 0)).core.getCell (-1) (-1) (-1) ≠ some 0 := by
  decide

/-- **C1** (amended).  For every coordinate of the cuboid actually enumerated
by the update loop (`z` strictly below `Z`) holding a stored value `v`, the
updated state's grid holds `rule(v, oldGrid.neighbourPop(c))` there; the
core grid's cell is 1 when that value is positive and the cell was visible,
and otherwise is absent (an unwritten slot, which `isVisible` treats as
dead); and the result's `oldGrid` field is the previous state's grid. -/
theorem claim_C1_makeUpdated (state : GridState) (rules : ℤ → ℕ → ℤ)
    (x y z v : ℤ)
    (hcub : inCuboid state.grid.dims x y z)
    (hv : state.grid.getCell x y z = some v) :
    (GridState.makeUpdated state rules).grid.getCell x y z =
      some (rules v (state.grid.neighbourPop x y z)) ∧
    (GridState.makeUpdated state rules).core.getCell x y z =
      (if 0 < rules v (state.grid.neighbourPop x y z) ∧ state.grid.isVisible x y z
       then some 1 else none) ∧
    (GridState.makeUpdated state rules).oldGrid = state.grid := by
  obtain ⟨hx1, hx2, hy1, hy2, hz1, hz2⟩ := hcub
  set g := state.grid with hg
  set d := g.dims with hd
  set N := (8 * d.X * d.Y * d.Z).toNat with hN
  have hX : 0 < d.X := by omega
  have hY : 0 < d.Y := by omega
  have hZ : 0 < d.Z := by omega
  have hNpos : 0 < 8 * d.X * d.Y * d.Z :=
    mul_pos (mul_pos (mul_pos (by norm_num) hX) hY) hZ
  have hNcast : (N : ℤ) = 8 * d.X * d.Y * d.Z := by rw [hN]; omega
  set acc : List (Option ℤ) × List (Option ℤ) :=
    (List.replicate N none, List.replicate N none) with hacc
  set res := d.coordList.foldl (GridState.updateStep g rules) acc with hres
  have hlen := GridState.foldl_updateStep_lengths g rules d.coordList acc
  have hlen1 : res.1.length = N := by
    rw [hres, hlen.1, hacc, List.length_replicate]
  have hlen2 : res.2.length = N := by
    rw [hres, hlen.2, hacc, List.length_replicate]
  have hmk1 : CellGrid.makeFromCells d res.1 g.states = some ⟨d, res.1, g.states⟩ := by
    unfold CellGrid.makeFromCells
    rw [if_pos]
    rw [hlen1, hNcast]
  have hmk2 : CellGrid.makeFromCells d res.2 = some ⟨d, res.2, 2⟩ := by
    unfold CellGrid.makeFromCells
    rw [if_pos]
    rw [hlen2, hNcast]
  have hgrid : (GridState.makeUpdated state rules).grid = ⟨d, res.1, g.states⟩ := by
    show (CellGrid.makeFromCells d res.1 g.states).getD ⟨d, res.1, g.states⟩ = _
    rw [hmk1]
    rfl
  have hcore : (GridState.makeUpdated state rules).core = ⟨d, res.2, 2⟩ := by
    show (CellGrid.makeFromCells d res.2 2).getD ⟨d, res.2, 2⟩ = _
    rw [hmk2]
    rfl
  have hib : d.inBounds x y z = true := by
    unfold GridDimensions.inBounds
    simp only [Bool.and_eq_true, decide_eq_true_eq, ge_iff_le]
    omega
  have hmem : ((x, y, z) : ℤ × ℤ × ℤ) ∈ d.coordList :=
    GridDimensions.mem_coordList.mpr ⟨hx1, hx2, hy1, hy2, hz1, hz2⟩
  have hbnd := GridDimensions.indexOf_bounds (d := d) (x := x) (y := y) (z := z)
    ⟨hx1, hx2, hy1, hy2, hz1, hz2⟩
  have hidxlt : GridState.idxN d (x, y, z) < N := by
    show (d.indexOf x y z).toNat < N
    omega
  have hget := GridState.foldl_updateStep_get g rules d.coordList acc (x, y, z)
    (GridState.nodup_idxN_coordList d) hmem
    (by rw [hacc, List.length_replicate]; exact hidxlt)
    (by rw [hacc, List.length_replicate]; exact hidxlt)
  have hrv : GridState.ruleVal g rules (x, y, z) =
      rules v (g.neighbourPop x y z) := by
    unfold GridState.ruleVal
    rw [show (x, y, z).1 = x from rfl]
    simp only [hv]
    rfl
  refine ⟨?_, ?_, rfl⟩
  · rw [hgrid]
    unfold CellGrid.getCell
    simp only [hib, if_true]
    show (res.1[GridState.idxN d (x, y, z)]?).join = _
    rw [← hres] at hget
    rw [hget.1, hrv]
    rfl
  · rw [hcore]
    unfold CellGrid.getCell
    simp only [hib, if_true]
    show (res.2[GridState.idxN d (x, y, z)]?).join = _
    rw [← hres] at hget
    rw [hget.2, hrv]
    have hrepl : acc.2[GridState.idxN d (x, y, z)]? = some none := by
      rw [hacc]
      simp [List.getElem?_replicate, hidxlt]
    rw [hrepl]
    dsimp only
    split
    · rfl
    · rfl

/-- Witness for C1's amended theorem: the full 2×2×2 grid, the identity
rule, coordinate (0,0,0), stored value 1. -/
theorem claim_C1_witness :
    inCuboid (GridState.makeFromGrid (CellGrid.makeFull ⟨1, 1, 1⟩)).grid.dims 0 0 0 ∧
    (GridState.makeFromGrid (CellGrid.makeFull ⟨1, 1, 1⟩)).grid.getCell 0 0 0 = some 1 ∧
    ((GridState.makeUpdated (GridState.makeFromGrid (CellGrid.makeFull ⟨1, 1, 1⟩))
        (fun cur _ => cur)).grid.getCell 0 0 0 =
      some ((fun (cur : ℤ) (_ : ℕ) => cur) 1
        ((GridState.makeFromGrid (CellGrid.makeFull ⟨1, 1, 1⟩)).grid.neighbourPop 0 0 0)) ∧
    (GridState.makeUpdated (GridState.makeFromGrid (CellGrid.makeFull ⟨1, 1, 1⟩))
        (fun cur _ => cur)).core.getCell 0 0 0 =
      (if 0 < (fun (cur : ℤ) (_ : ℕ) => cur) 1
            ((GridState.makeFromGrid (CellGrid.makeFull ⟨1, 1, 1⟩)).grid.neighbourPop 0 0 0) ∧
          (GridState.makeFromGrid (CellGrid.makeFull ⟨1, 1, 1⟩)).grid.isVisible 0 0 0
       then some 1 else none) ∧
    (GridState.makeUpdated (GridState.makeFromGrid (CellGrid.makeFull ⟨1, 1, 1⟩))
        (fun cur _ => cur)).oldGrid =
      (GridState.makeFromGrid (CellGrid.makeFull ⟨1, 1, 1⟩)).grid) :=
  ⟨by decide, by decide,
   claim_C1_makeUpdated (GridState.makeFromGrid (CellGrid.makeFull ⟨1, 1, 1⟩))
     (fun cur _ => cur) 0 0 0 1 (by decide) (by decide)⟩

/-- **C2** (confirmed). For every grid and coordinate, `neighbourPop`
equals the number of live cells among the 26 positions at Chebyshev
distance 1 (never the centre, and out-of-bounds positions are never live,
`isLive` being false there); and for a grid whose only live cell is at the
centre of its space, `neighbourPop` is 0 at that cell and 1 at each of its
26 neighbour positions. -/
theorem claim_C2_neighbourPop_chebyshev :
    (∀ (g : CellGrid) (x y z : ℤ),
      g.neighbourPop x y z =
        (chebNeighbours x y z).countP fun c => g.isLive c.1 c.2.1 c.2.2) ∧
    singleLiveGrid.neighbourPop 0 0 0 = 0 ∧
    ((chebNeighbours 0 0 0).all fun c =>
      singleLiveGrid.neighbourPop c.1 c.2.1 c.2.2 == 1) = true :=
  ⟨fun g x y z => CellGrid.neighbourPop_eq_chebCount g x y z, by decide, by decide⟩

/-- **C3** (confirmed).  `AnimFace.makeFromCell` classifies by
`(oldGrid.isVisible, grid.isVisible)`: (false,false) gives no faces;
(false,true) one GROW face per orientation with AO from the new grid;
(true,false) one SHRINK face per orientation with AO from the old grid;
(true,true) one AO_ONLY face per orientation kept by culling against the
core grid, pairing by orientation the start face (AO from the old grid)
with the end face (AO from the new grid). -/
theorem claim_C3_makeFromCell_classification (state : GridState) (x y z : ℤ) :
    AnimFace.makeFromCell state x y z =
      if state.oldGrid.isVisible x y z then
        if state.grid.isVisible x y z then
          if state.core.isVisible x y z then
            (SIDES.filter fun side =>
              let dir := directions side
              ¬state.core.isVisible (x + dir.1) (y + dir.2.1) (z + dir.2.2)).map
              fun side =>
                ⟨some ⟨x, y, z, side, Face.faceAOs state.oldGrid x y z side⟩,
                 some ⟨x, y, z, side, Face.faceAOs state.grid x y z side⟩, .AO_ONLY⟩
          else []
        else
          SIDES.map fun side =>
            ⟨some ⟨x, y, z, side, Face.faceAOs state.oldGrid x y z side⟩, none, .SHRINK⟩
      else
        if state.grid.isVisible x y z then
          SIDES.map fun side =>
            ⟨none, some ⟨x, y, z, side, Face.faceAOs state.grid x y z side⟩, .GROW⟩
        else [] :=
  AnimFace.makeFromCell_cases state x y z

/-- **C4** (code_bug).  `skipUpdates` iterates with
`for (let _ in \x7b length: iterations \x7d)`, which runs its body exactly once
whatever `iterations` is, so it always equals a single `makeUpdated` —
contradicting its own documentation ("Number of updates to perform") and
the claim; in particular with `n = 0` the initial state is not returned
unchanged. -/
theorem claim_C4_skipUpdates_single_update :
    (∀ (s : GridState) (rules : ℤ → ℕ → ℤ) (n : ℤ),
      GridState.skipUpdates s rules n = GridState.makeUpdated s rules) ∧
    GridState.skipUpdates (GridState.makeFromGrid (CellGrid.makeFull ⟨1, 1, 1⟩))
        (fun _ _ => 0) 0 ≠
      GridState.makeFromGrid (CellGrid.makeFull ⟨1, 1, 1⟩) :=
  ⟨fun _ _ _ => rfl, by decide⟩

/-- **C5** (counterexample).  `indexOf` is not injective on the set accepted
by `inBounds`: with half-extents (1,1,1), the distinct in-bounds triples
`(-1,-1,1)` and `(-1,0,-1)` share flat index 2 (the inclusive `z <= Z`
check admits `z = Z`, which aliases the next y-row). -/
theorem claim_C5_counterexample :
    (GridDimensions.mk 1 1 1).inBounds (-1) (-1) 1 = true ∧
    (GridDimensions.mk 1 1 1).inBounds (-1) 0 (-1) = true ∧
    (GridDimensions.mk 1 1 1).indexOf (-1) (-1) 1 =
      (GridDimensions.mk 1 1 1).indexOf (-1) 0 (-1) ∧
    ((-1 : ℤ), (-1 : ℤ), (1 : ℤ)) ≠ ((-1 : ℤ), (0 : ℤ), (-1 : ℤ)) := by
  decide

/-- **C5** (amended).  For positive half-extents, `indexOf` is a bijection
between the coordinate cuboid `[-X,X) × [-Y,Y) × [-Z,Z)` actually enumerated
by the iterator (z-axis bound strict, unlike `inBounds`'s inclusive check)
and the flat range `[0, 8·X·Y·Z)`: it maps the cuboid into the range,
injectively, and onto it. -/
theorem claim_C5_indexOf_bijective_on_cuboid (d : GridDimensions)
    (hX : 0 < d.X) (hY : 0 < d.Y) (hZ : 0 < d.Z) :
    (∀ x y z : ℤ, inCuboid d x y z →
      0 ≤ d.indexOf x y z ∧ d.indexOf x y z < 8 * d.X * d.Y * d.Z) ∧
    (∀ x₁ y₁ z₁ x₂ y₂ z₂ : ℤ, inCuboid d x₁ y₁ z₁ → inCuboid d x₂ y₂ z₂ →
      d.indexOf x₁ y₁ z₁ = d.indexOf x₂ y₂ z₂ → x₁ = x₂ ∧ y₁ = y₂ ∧ z₁ = z₂) ∧
    (∀ n : ℤ, 0 ≤ n → n < 8 * d.X * d.Y * d.Z →
      ∃ x y z : ℤ, inCuboid d x y z ∧ d.indexOf x y z = n) :=
  ⟨fun _ _ _ h => GridDimensions.indexOf_bounds h,
   fun _ _ _ _ _ _ h₁ h₂ he => GridDimensions.indexOf_inj h₁ h₂ he,
   fun _ hn0 hn => GridDimensions.indexOf_surj hX hY hZ hn0 hn⟩

/-- Witness for C5's amended theorem at half-extents (1,1,1). -/
theorem claim_C5_witness :
    ((0 : ℤ) < 1 ∧ (0 : ℤ) < 1 ∧ (0 : ℤ) < 1) ∧
    ((∀ x y z : ℤ, inCuboid ⟨1, 1, 1⟩ x y z →
      0 ≤ (GridDimensions.mk 1 1 1).indexOf x y z ∧
        (GridDimensions.mk 1 1 1).indexOf x y z < 8 * 1 * 1 * 1) ∧
    (∀ x₁ y₁ z₁ x₂ y₂ z₂ : ℤ, inCuboid ⟨1, 1, 1⟩ x₁ y₁ z₁ →
      inCuboid ⟨1, 1, 1⟩ x₂ y₂ z₂ →
      (GridDimensions.mk 1 1 1).indexOf x₁ y₁ z₁ =
        (GridDimensions.mk 1 1 1).indexOf x₂ y₂ z₂ →
      x₁ = x₂ ∧ y₁ = y₂ ∧ z₁ = z₂) ∧
    (∀ n : ℤ, 0 ≤ n → n < 8 * 1 * 1 * 1 →
      ∃ x y z : ℤ, inCuboid ⟨1, 1, 1⟩ x y z ∧
        (GridDimensions.mk 1 1 1).indexOf x y z = n)) :=
  ⟨⟨by decide, by decide, by decide⟩,
   claim_C5_indexOf_bijective_on_cuboid ⟨1, 1, 1⟩ (by decide) (by decide) (by decide)⟩

/-- **C6** (confirmed).  `makeFromCells` succeeds iff the supplied array's
length is `8·X·Y·Z`; on success the grid's cells are exactly the supplied
array, and rebuilding from a size-consistent grid's own cells and states
round-trips to the same cell contents. -/
theorem claim_C6_makeFromCells_length_roundtrip
    (dims : GridDimensions) (cells : List (Option ℤ)) (states : ℤ) :
    ((CellGrid.makeFromCells dims cells states).map CellGrid.cells =
      if 8 * dims.X * dims.Y * dims.Z = (cells.length : ℤ) then some cells else none) ∧
    ((CellGrid.makeFromCells dims cells states).isSome ↔
      8 * dims.X * dims.Y * dims.Z = (cells.length : ℤ)) ∧
    (∀ g : CellGrid, 8 * g.dims.X * g.dims.Y * g.dims.Z = (g.cells.length : ℤ) →
      (CellGrid.makeFromCells g.dims g.cells g.states).map CellGrid.cells =
        some g.cells) := by
  refine ⟨?_, ?_, ?_⟩
  · unfold CellGrid.makeFromCells
    split <;> rfl
  · unfold CellGrid.makeFromCells
    split <;> simp_all
  · intro g hg
    unfold CellGrid.makeFromCells
    rw [if_pos hg]
    rfl

/-- Witness for C6 at half-extents (1,1,1) and the empty grid. -/
theorem claim_C6_witness :
    8 * (CellGrid.makeEmpty ⟨1, 1, 1⟩).dims.X * (CellGrid.makeEmpty ⟨1, 1, 1⟩).dims.Y *
        (CellGrid.makeEmpty ⟨1, 1, 1⟩).dims.Z =
      ((CellGrid.makeEmpty ⟨1, 1, 1⟩).cells.length : ℤ) ∧
    (CellGrid.makeFromCells (CellGrid.makeEmpty ⟨1, 1, 1⟩).dims
        (CellGrid.makeEmpty ⟨1, 1, 1⟩).cells
        (CellGrid.makeEmpty ⟨1, 1, 1⟩).states).map CellGrid.cells =
      some (CellGrid.makeEmpty ⟨1, 1, 1⟩).cells :=
  ⟨by decide,
   (claim_C6_makeFromCells_length_roundtrip ⟨1, 1, 1⟩
      (CellGrid.makeEmpty ⟨1, 1, 1⟩).cells 2).2.2 _ (by decide)⟩

/-- **C7** (counterexample).  `getAOs(p)` is not the linear mix with factor
`smoothstep(p)`: `mix4` applies `smoothStep` to its control again, so at
`p = 1/4` (inside [0,1]) the AO-only face from all-1/4 to all-1 yields
19609/65536 per component, not the claimed 47/128. -/
theorem claim_C7_counterexample :
    ((0 : ℚ) ≤ 1/4 ∧ (1/4 : ℚ) ≤ 1) ∧
    (AnimFace.makeTransition ⟨0, 0, 0, .XNEG, (1/4, 1/4, 1/4, 1/4)⟩
        ⟨0, 0, 0, .XNEG, (1, 1, 1, 1)⟩ .AO_ONLY).getAOs (1/4) ≠
      some (lerp4 (1/4, 1/4, 1/4, 1/4) (1, 1, 1, 1) (Utils.smoothStep (1/4))) := by
  refine ⟨⟨by norm_num, by norm_num⟩, ?_⟩
  simp only [AnimFace.makeTransition, AnimFace.getAOs, Utils.mix4, Utils.mix,
    Utils.smoothStep, Utils.clamp, lerp4, Option.bind_some, Option.map_some]
  norm_num

/-- **C7** (amended).  For every progress value, `getAOs(p)` is the
per-component linear mix with factor `smoothstep(smoothstep(p))` (the
control `smoothstep(p)` is smoothstepped once more inside `mix4`), between
the kind's endpoints: all-1 to end AOs for GROW, start AOs to all-1 for
SHRINK, start AOs to end AOs for TRANSITION and AO_ONLY. -/
theorem claim_C7_getAOs_double_smoothstep (s e : Face) (p : ℚ) :
    (AnimFace.makeGrowing e).getAOs p =
      some (lerp4 (1, 1, 1, 1) e.aos (Utils.smoothStep (Utils.smoothStep p))) ∧
    (AnimFace.makeShrinking s).getAOs p =
      some (lerp4 s.aos (1, 1, 1, 1) (Utils.smoothStep (Utils.smoothStep p))) ∧
    (AnimFace.makeTransition s e).getAOs p =
      some (lerp4 s.aos e.aos (Utils.smoothStep (Utils.smoothStep p))) ∧
    (AnimFace.makeTransition s e .AO_ONLY).getAOs p =
      some (lerp4 s.aos e.aos (Utils.smoothStep (Utils.smoothStep p))) :=
  ⟨rfl, rfl, rfl, rfl⟩

/-- **C8** (counterexample).  `makeFull` fills with the literal `1`, not
`states - 1`: with states = 3, every cell is `1` (≠ 2 = states - 1). -/
theorem claim_C8_counterexample :
    (CellGrid.makeFull ⟨1, 1, 1⟩ 3).cells[0]? = some (some 1) ∧
    ¬∀ c ∈ (CellGrid.makeFull ⟨1, 1, 1⟩ 3).cells, c = some (3 - 1) := by
  decide

/-- **C8** (amended).  For positive half-extents, `makeEmpty` returns a grid
of length `8·X·Y·Z` whose every cell is `0`, and `makeFull` returns a grid
of the same length whose every cell is the literal `1` (which equals
`states - 1` only for the default `states = 2`). -/
theorem claim_C8_makeEmpty_makeFull (dims : GridDimensions) (states : ℤ)
    (hX : 0 < dims.X) (hY : 0 < dims.Y) (hZ : 0 < dims.Z) :
    (((CellGrid.makeEmpty dims states).cells.length : ℤ) =
        8 * dims.X * dims.Y * dims.Z ∧
      ∀ c ∈ (CellGrid.makeEmpty dims states).cells, c = some 0) ∧
    (((CellGrid.makeFull dims states).cells.length : ℤ) =
        8 * dims.X * dims.Y * dims.Z ∧
      ∀ c ∈ (CellGrid.makeFull dims states).cells, c = some 1) := by
  have hpos : 0 < 8 * dims.X * dims.Y * dims.Z :=
    mul_pos (mul_pos (mul_pos (by norm_num) hX) hY) hZ
  refine ⟨⟨?_, fun c hc => List.eq_of_mem_replicate hc⟩,
          ⟨?_, fun c hc => List.eq_of_mem_replicate hc⟩⟩ <;>
    · show ((List.replicate (8 * dims.X * dims.Y * dims.Z).toNat _).length : ℤ) = _
      rw [List.length_replicate]
      omega

/-- Witness for C8 at half-extents (1,1,1), states = 3. -/
theorem claim_C8_witness :
    ((0 : ℤ) < 1 ∧ (0 : ℤ) < 1 ∧ (0 : ℤ) < 1) ∧
    ((((CellGrid.makeEmpty ⟨1, 1, 1⟩ 3).cells.length : ℤ) = 8 * 1 * 1 * 1 ∧
      ∀ c ∈ (CellGrid.makeEmpty ⟨1, 1, 1⟩ 3).cells, c = some 0) ∧
    (((CellGrid.makeFull ⟨1, 1, 1⟩ 3).cells.length : ℤ) = 8 * 1 * 1 * 1 ∧
      ∀ c ∈ (CellGrid.makeFull ⟨1, 1, 1⟩ 3).cells, c = some 1)) :=
  ⟨⟨by decide, by decide, by decide⟩,
   claim_C8_makeEmpty_makeFull ⟨1, 1, 1⟩ 3 (by decide) (by decide) (by decide)⟩

/-- **C9** (confirmed).  `makeRandom` omits the `states` argument in its
constructor call, so the returned grid's `states` field is always the
default 2 even though each cell is set to `states - 1` or `0`; hence for
`states > 2` no cell of the returned grid is ever `isLive`. -/
theorem claim_C9_makeRandom_states_defaulted (dims : GridDimensions)
    (prob : ℚ) (states : ℤ) (rand : ℕ → ℚ) :
    (CellGrid.makeRandom dims prob states rand).states = 2 ∧
    (∀ c ∈ (CellGrid.makeRandom dims prob states rand).cells,
      c = some (states - 1) ∨ c = some 0) ∧
    (2 < states → ∀ x y z : ℤ,
      (CellGrid.makeRandom dims prob states rand).isLive x y z = false) := by
  refine ⟨rfl, ?_, ?_⟩
  · intro c hc
    simp only [CellGrid.makeRandom, List.mem_map] at hc
    obtain ⟨i, _, rfl⟩ := hc
    split
    · exact Or.inl rfl
    · exact Or.inr rfl
  · intro hst x y z
    unfold CellGrid.isLive
    cases hcell : (CellGrid.makeRandom dims prob states rand).getCell x y z with
    | none => rfl
    | some v =>
        have hv : some v ∈ (CellGrid.makeRandom dims prob states rand).cells := by
          unfold CellGrid.getCell at hcell
          split at hcell
          · exact List.getElem?_mem (Option.join_eq_some.mp hcell)
          · cases hcell
        have hor : (some v : Option ℤ) = some (states - 1) ∨ (some v : Option ℤ) = some 0 := by
          simp only [CellGrid.makeRandom, List.mem_map] at hv
          obtain ⟨i, _, hi⟩ := hv
          split at hi
          · exact Or.inl hi.symm
          · exact Or.inr hi.symm
        have : v ≠ (CellGrid.makeRandom dims prob states rand).states - 1 := by
          have h2 : (CellGrid.makeRandom dims prob states rand).states = 2 := rfl
          rw [h2]
          rcases hor with h | h <;> · injection h with h'; omega
        simp [this]

/-- Witness for C9 with states = 4 and the constant-zero sampling oracle. -/
theorem claim_C9_witness :
    (2 : ℤ) < 4 ∧
    (CellGrid.makeRandom ⟨1, 1, 1⟩ (1/2) 4 (fun _ => 0)).isLive 0 0 0 = false :=
  ⟨by decide,
   (claim_C9_makeRandom_states_defaulted ⟨1, 1, 1⟩ (1/2) 4 (fun _ => 0)).2.2
     (by decide) 0 0 0⟩

/-- **C10** (confirmed).  Every `AnimFace` produced by `makeFromCell` (or by
`makeFromGridState`) carries the endpoints its kind requires — end for GROW,
start for SHRINK, both for TRANSITION / AO_ONLY — and consequently all four
progress-evaluated getters (`getVertices`, `getNorm`, `getIndices`,
`getAOs`) return a value (no null dereference) for every progress, easing
function and offset. -/
theorem claim_C10_produced_faces_total (state : GridState) (x y z : ℤ)
    (af : AnimFace)
    (hmem : af ∈ AnimFace.makeFromCell state x y z ∨
            af ∈ AnimFace.makeFromGridState state) :
    ((af.type = .GROW → af.finish.isSome) ∧
     (af.type = .SHRINK → af.start.isSome) ∧
     (af.type = .TRANSITION ∨ af.type = .AO_ONLY →
       af.start.isSome ∧ af.finish.isSome)) ∧
    (∀ (cosFn : ℚ → ℚ) (p : ℚ) (offset : ℤ),
      (af.getVertices cosFn p).isSome ∧ (af.getNorm p).isSome ∧
      (af.getIndices offset).isSome ∧ (af.getAOs p).isSome) := by
  have hc : ∃ a b c, af ∈ AnimFace.makeFromCell state a b c := by
    rcases hmem with h | h
    · exact ⟨x, y, z, h⟩
    · rw [AnimFace.makeFromGridState_eq, List.mem_flatMap] at h
      obtain ⟨c, _, hcf⟩ := h
      exact ⟨c.1, c.2.1, c.2.2, hcf⟩
  obtain ⟨a, b, c, hmem2⟩ := hc
  rcases AnimFace.makeFromCell_shapes state a b c af hmem2 with
    ⟨f, rfl⟩ | ⟨f, rfl⟩ | ⟨s, e, rfl⟩ <;>
    refine ⟨⟨?_, ?_, ?_⟩, fun cosFn p offset => ⟨?_, ?_, ?_, ?_⟩⟩ <;>
      simp [AnimFace.getVertices, AnimFace.getNorm, AnimFace.getIndices,
        AnimFace.getAOs]

/-- Witness for C10: the AO-only face of `fullState`'s cell (0,0,0). -/
theorem claim_C10_witness :
    (sampleAnimFace ∈ AnimFace.makeFromCell fullState 0 0 0 ∨
      sampleAnimFace ∈ AnimFace.makeFromGridState fullState) ∧
    (((sampleAnimFace.type = .GROW → sampleAnimFace.finish.isSome) ∧
      (sampleAnimFace.type = .SHRINK → sampleAnimFace.start.isSome) ∧
      (sampleAnimFace.type = .TRANSITION ∨ sampleAnimFace.type = .AO_ONLY →
        sampleAnimFace.start.isSome ∧ sampleAnimFace.finish.isSome)) ∧
     ∀ (cosFn : ℚ → ℚ) (p : ℚ) (offset : ℤ),
      (sampleAnimFace.getVertices cosFn p).isSome ∧
      (sampleAnimFace.getNorm p).isSome ∧
      (sampleAnimFace.getIndices offset).isSome ∧
      (sampleAnimFace.getAOs p).isSome) :=
  ⟨Or.inl (by decide),
   claim_C10_produced_faces_total fullState 0 0 0 sampleAnimFace
     (Or.inl (by decide))⟩

end Cellular
